import Mathlib

/-!
Shallow embedding of `dna_to_fastq_encoder.py` (class `DnaToFastqEncoder`).

Modelling choices:
- A Python `bytes` buffer is a `List Nat` whose elements are < 256.
- The file system is a function `String → Option (List Nat)`: `some data`
  when the path can be opened for reading (yielding those bytes), `none`
  when opening raises `FileNotFoundError`.
- Raised exceptions become the `Except DecodeError` monad; each error
  constructor carries the data interpolated into the Python message, and
  `DecodeError.message` renders the exact message string.
- The generators `generate_decoded_sequences` / `decode_to_fastq` are
  modelled extensionally: fully consuming the generator yields either the
  list of all yielded items, or the error raised during consumption
  (with no items, matching the fact that the errors in this program can
  only be raised before the first item is yielded).
- The class dict lookup `self.nucleotide_dict[code]` is `Option`-valued
  (a missing key raises `KeyError`, modelled as `none` / `DecodeError.keyError`).
-/

/-- Errors raised by the encoder: `ValueError` from `__init__`,
`FileNotFoundError` from `read_from_file`, `RuntimeError` from
`generate_decoded_sequences`, and a `KeyError` for a failed dict lookup. -/
inductive DecodeError where
  | invalidLength (l : Int)
  | fileNotFound (filepath : String)
  | insufficientData (filepath : String) (l : Int)
  | keyError
deriving DecidableEq

/-- The exact message string each raised exception carries in the source. -/
def DecodeError.message : DecodeError → String
  | .invalidLength l =>
      "L-value error: Cannot decode sequences of length " ++ toString l ++
      ". L-value must be a positive integer"
  | .fileNotFound filepath => "File " ++ filepath ++ " not found"
  | .insufficientData filepath l =>
      "Insufficient data to decode: The input file '" ++ filepath ++
      "' does not contain enough data to form a single sequence of length " ++
      toString l ++ "."
  | .keyError => "KeyError"

/-- State of a `DnaToFastqEncoder` instance: `filepath`, `l`,
`_is_data_loaded` and `data` (from `__init__` / `read_from_file`). -/
structure DnaToFastqEncoder where
  filepath : String
  l : Int
  is_data_loaded : Bool
  data : Option (List Nat)
deriving DecidableEq

/-- The class attribute `nucleotide_dict = {0: 'A', 1: 'C', 2: 'G', 3: 'T'}`,
as an `Option`-valued lookup (a missing key raises `KeyError`). -/
def nucleotide_dict (code : Nat) : Option Char :=
  if code = 0 then some 'A'
  else if code = 1 then some 'C'
  else if code = 2 then some 'G'
  else if code = 3 then some 'T'
  else none

/-- `DnaToFastqEncoder.__init__(filepath, l)`: store `filepath`; raise
`ValueError` if `l <= 0`, else store `l`; `_is_data_loaded = False`,
`data = None`. -/
def DnaToFastqEncoder.init (filepath : String) (l : Int) :
    Except DecodeError DnaToFastqEncoder :=
  if l ≤ 0 then .error (.invalidLength l)
  else .ok ⟨filepath, l, false, none⟩

/-- `DnaToFastqEncoder.read_from_file(self)`: read the whole file into
`data` and set `_is_data_loaded`; raise `FileNotFoundError` (with the
path in the message) when the file cannot be opened. -/
def read_from_file (fs : String → Option (List Nat)) (e : DnaToFastqEncoder) :
    Except DecodeError DnaToFastqEncoder :=
  match fs e.filepath with
  | some d => .ok ⟨e.filepath, e.l, true, some d⟩
  | none => .error (.fileNotFound e.filepath)

/-- `DnaToFastqEncoder.fastq_string(self, nucleotide_seq, quality_scores, i)`. -/
def fastq_string (nucleotide_seq quality_scores : String) (i : Nat) : String :=
  "@READ_" ++ toString i ++ "\n" ++ nucleotide_seq ++ "\n+READ_" ++
  toString i ++ "\n" ++ quality_scores

/-- The loop body of `decode_dna`, accumulating the two output strings
left-to-right over the bytes of `piece`: per byte, `code = byte >> 6` is
looked up in `nucleotide_dict` and `chr((byte & 0b00111111) + 33)` is
appended to the quality string. -/
def decode_dna_loop : List Nat → String → String → Option (String × String)
  | [], nucleotide_seq, quality_scores => some (nucleotide_seq, quality_scores)
  | byte :: rest, nucleotide_seq, quality_scores =>
    match nucleotide_dict (byte >>> 6) with
    | none => none
    | some c =>
        decode_dna_loop rest (nucleotide_seq.push c)
          (quality_scores.push (Char.ofNat ((byte &&& 63) + 33)))

/-- `DnaToFastqEncoder.decode_dna(self, piece)`: decode a bytes piece into
the pair (nucleotide string, quality string), starting from two empty
accumulator strings. -/
def decode_dna (piece : List Nat) : Option (String × String) :=
  decode_dna_loop piece "" ""

/-- The nucleotide character `decode_dna` produces for a byte `< 256`:
`nucleotide_dict[byte >> 6]`. -/
def decodeNuc (byte : Nat) : Char :=
  match byte >>> 6 with
  | 0 => 'A'
  | 1 => 'C'
  | 2 => 'G'
  | _ => 'T'

/-- The quality character `decode_dna` produces for a byte:
`chr((byte & 0b00111111) + 33)`. -/
def decodeQual (byte : Nat) : Char :=
  Char.ofNat ((byte &&& 63) + 33)

/-- The body of the `for i in range(n_pieces)` loop of
`generate_decoded_sequences`, run over an explicit list of indices:
slice the piece `data[i*l : (i+1)*l]`, decode it, and yield
`(nucleotide_seq, quality_scores, i)`. -/
def decodePieces (data : List Nat) (l : Nat) :
    List Nat → Option (List (String × String × Nat))
  | [] => some []
  | i :: rest =>
    match decode_dna ((data.drop (i * l)).take l) with
    | none => none
    | some p =>
      match decodePieces data l rest with
      | none => none
      | some recs => some ((p.1, p.2, i) :: recs)

/-- The lazy-load step at the top of `generate_decoded_sequences`:
`if not self._is_data_loaded: self.read_from_file()`. -/
def load_if_needed (fs : String → Option (List Nat)) (e : DnaToFastqEncoder) :
    Except DecodeError DnaToFastqEncoder :=
  if e.is_data_loaded then .ok e else read_from_file fs e

/-- `DnaToFastqEncoder.generate_decoded_sequences(self)`: lazily load,
compute `n_pieces = len(data) // l`, raise `RuntimeError` when it is 0,
else decode every piece in index order. Returns the post-run encoder
state together with the list of yielded triples. -/
def generate_decoded_sequences (fs : String → Option (List Nat))
    (e : DnaToFastqEncoder) :
    Except DecodeError (DnaToFastqEncoder × List (String × String × Nat)) :=
  match load_if_needed fs e with
  | .error err => .error err
  | .ok e2 =>
    if (e2.data.getD []).length / e2.l.toNat = 0 then
      .error (.insufficientData e2.filepath e2.l)
    else
      match decodePieces (e2.data.getD []) e2.l.toNat
          (List.range ((e2.data.getD []).length / e2.l.toNat)) with
      | none => .error .keyError
      | some recs => .ok (e2, recs)

/-- `DnaToFastqEncoder.decode_to_fastq(self)`: format every yielded triple
as a FASTQ block with 1-based index `i + 1`. -/
def decode_to_fastq (fs : String → Option (List Nat)) (e : DnaToFastqEncoder) :
    Except DecodeError (List String) :=
  match generate_decoded_sequences fs e with
  | .error err => .error err
  | .ok (_, recs) => .ok (recs.map (fun r => fastq_string r.1 r.2.1 (r.2.2 + 1)))

/-- A freshly constructed encoder (the value `__init__` produces when
`l` is a positive integer `l : Nat`). -/
def mkEncoder (filepath : String) (l : Nat) : DnaToFastqEncoder :=
  ⟨filepath, Int.ofNat l, false, none⟩

/-- The record list `generate_decoded_sequences` yields on buffer `data`
with record length `l`: one `(nucleotide, quality, i)` triple per chunk
`data[i*l : (i+1)*l]`, for `i` in `0 .. len(data)/l - 1`. -/
def pipelineRecs (data : List Nat) (l : Nat) : List (String × String × Nat) :=
  (List.range (data.length / l)).map (fun i =>
    (String.mk (((data.drop (i * l)).take l).map decodeNuc),
     String.mk (((data.drop (i * l)).take l).map decodeQual), i))

/-! Helper lemmas about the byte decoder and the chunking pipeline. -/

theorem nucleotide_dict_eq (b : Nat) (hb : b < 256) :
    nucleotide_dict (b >>> 6) = some (decodeNuc b) := by
  have hdiv : b >>> 6 = b / 64 := by
    rw [Nat.shiftRight_eq_div_pow]
  have h4 : b / 64 < 4 := by omega
  have : b / 64 = 0 ∨ b / 64 = 1 ∨ b / 64 = 2 ∨ b / 64 = 3 := by omega
  rcases this with h | h | h | h <;>
    simp [nucleotide_dict, decodeNuc, hdiv, h]

theorem decode_dna_loop_eq (piece : List Nat) :
    ∀ ns qs : String, (∀ b ∈ piece, b < 256) →
      decode_dna_loop piece ns qs =
        some (String.mk (ns.data ++ piece.map decodeNuc),
              String.mk (qs.data ++ piece.map decodeQual)) := by
  induction piece with
  | nil => intro ns qs _; simp [decode_dna_loop]
  | cons b rest ih =>
    intro ns qs hb
    have hb0 : b < 256 := hb b (List.mem_cons_self b rest)
    have hrest : ∀ x ∈ rest, x < 256 := fun x hx => hb x (List.mem_cons_of_mem b hx)
    simp only [decode_dna_loop, nucleotide_dict_eq b hb0]
    rw [ih (ns.push (decodeNuc b)) (qs.push (Char.ofNat ((b &&& 63) + 33))) hrest]
    simp [String.push, decodeQual]

theorem decode_dna_eq (piece : List Nat) (hb : ∀ b ∈ piece, b < 256) :
    decode_dna piece =
      some (String.mk (piece.map decodeNuc), String.mk (piece.map decodeQual)) := by
  have := decode_dna_loop_eq piece "" "" hb
  simpa [decode_dna] using this

theorem decodePieces_eq (data : List Nat) (l : Nat) (hb : ∀ b ∈ data, b < 256) :
    ∀ idxs : List Nat,
      decodePieces data l idxs =
        some (idxs.map (fun i =>
          (String.mk (((data.drop (i * l)).take l).map decodeNuc),
           String.mk (((data.drop (i * l)).take l).map decodeQual), i))) := by
  intro idxs
  induction idxs with
  | nil => simp [decodePieces]
  | cons i rest ih =>
    have hchunk : ∀ b ∈ (data.drop (i * l)).take l, b < 256 := fun b hmem =>
      hb b (List.mem_of_mem_drop (List.mem_of_mem_take hmem))
    simp only [decodePieces, decode_dna_eq _ hchunk, ih, List.map_cons]

theorem generate_eq_ok (fs : String → Option (List Nat)) (fp : String)
    (data : List Nat) (l : Nat) (hfs : fs fp = some data)
    (hb : ∀ b ∈ data, b < 256) (hN : data.length / l ≠ 0) :
    generate_decoded_sequences fs (mkEncoder fp l) =
      .ok (⟨fp, Int.ofNat l, true, some data⟩, pipelineRecs data l) := by
  simp only [generate_decoded_sequences, load_if_needed, mkEncoder,
    read_from_file, hfs, Bool.false_eq_true, if_false]
  have hto : (Int.ofNat l).toNat = l := rfl
  simp only [Option.getD, hto]
  rw [if_neg hN, decodePieces_eq data l hb]
  rfl

theorem generate_eq_insufficient (fs : String → Option (List Nat)) (fp : String)
    (data : List Nat) (l : Nat) (hfs : fs fp = some data)
    (hN : data.length / l = 0) :
    generate_decoded_sequences fs (mkEncoder fp l) =
      .error (.insufficientData fp (Int.ofNat l)) := by
  simp only [generate_decoded_sequences, load_if_needed, mkEncoder,
    read_from_file, hfs, Bool.false_eq_true, if_false]
  have hto : (Int.ofNat l).toNat = l := rfl
  simp only [Option.getD, hto]
  rw [if_pos hN]

theorem generate_eq_notfound (fs : String → Option (List Nat)) (fp : String)
    (l : Nat) (hfs : fs fp = none) :
    generate_decoded_sequences fs (mkEncoder fp l) =
      .error (.fileNotFound fp) := by
  simp only [generate_decoded_sequences, load_if_needed, mkEncoder,
    read_from_file, hfs, Bool.false_eq_true, if_false]

theorem pipelineRecs_length (data : List Nat) (l : Nat) :
    (pipelineRecs data l).length = data.length / l := by
  simp [pipelineRecs]

theorem chunk_length (data : List Nat) (l j : Nat) (hj : j < data.length / l) :
    ((data.drop (j * l)).take l).length = l := by
  have h1 : (j + 1) * l ≤ (data.length / l) * l := Nat.mul_le_mul_right l (by omega)
  have h2 : (data.length / l) * l ≤ data.length := Nat.div_mul_le_self _ _
  have h3 : (j + 1) * l = j * l + l := by ring
  simp only [List.length_take, List.length_drop]
  omega

theorem pipelineRecs_getElem (data : List Nat) (l j : Nat)
    (hj : j < data.length / l) :
    (pipelineRecs data l)[j]? = some
      (String.mk (((data.drop (j * l)).take l).map decodeNuc),
       String.mk (((data.drop (j * l)).take l).map decodeQual), j) := by
  simp [pipelineRecs, List.getElem?_map, List.getElem?_range, hj]

theorem load_if_needed_loaded (fs : String → Option (List Nat))
    (e : DnaToFastqEncoder) (h : e.is_data_loaded = true) :
    load_if_needed fs e = .ok e := by
  simp [load_if_needed, h]

theorem load_if_needed_ok_loaded (fs : String → Option (List Nat))
    (e e2 : DnaToFastqEncoder) (h : load_if_needed fs e = .ok e2) :
    e2.is_data_loaded = true := by
  unfold load_if_needed at h
  by_cases hl : e.is_data_loaded = true
  · rw [if_pos hl] at h
    injection h with h2
    rw [← h2]
    exact hl
  · rw [if_neg hl] at h
    unfold read_from_file at h
    cases hfs : fs e.filepath with
    | some d => rw [hfs] at h; injection h with h2; rw [← h2]
    | none => rw [hfs] at h; exact absurd h (by simp)

/-! Claim theorems. -/

/-- Claim C1: for every byte buffer and record length L >= 1 with
N = floor(len(buffer)/L) >= 1, consuming the decode pipeline yields
exactly N records, whose zero-based yield indices are dense 0..N-1 in
order (hence the FASTQ headers carry 1-based indices 1..N, strictly
ascending with no gaps), and in every record the nucleotide sequence and
the quality string both have length exactly L. -/
theorem fastq_C1 (fs : String → Option (List Nat)) (fp : String)
    (data : List Nat) (l : Nat) (hfs : fs fp = some data)
    (hb : ∀ b ∈ data, b < 256) (_hl : 1 ≤ l) (hN : 1 ≤ data.length / l) :
    ∃ recs : List (String × String × Nat),
      generate_decoded_sequences fs (mkEncoder fp l) =
        Except.ok (⟨fp, Int.ofNat l, true, some data⟩, recs) ∧
      recs.length = data.length / l ∧
      (∀ j, j < data.length / l → ∃ ns qs,
        recs[j]? = some (ns, qs, j) ∧ ns.length = l ∧ qs.length = l) ∧
      decode_to_fastq fs (mkEncoder fp l) =
        Except.ok (recs.map (fun r => fastq_string r.1 r.2.1 (r.2.2 + 1))) := by
  have hgen := generate_eq_ok fs fp data l hfs hb (by omega)
  refine ⟨pipelineRecs data l, hgen, pipelineRecs_length data l, ?_, ?_⟩
  · intro j hj
    refine ⟨_, _, pipelineRecs_getElem data l j hj, ?_, ?_⟩
    · show (((data.drop (j * l)).take l).map decodeNuc).length = l
      rw [List.length_map]
      exact chunk_length data l j hj
    · show (((data.drop (j * l)).take l).map decodeQual).length = l
      rw [List.length_map]
      exact chunk_length data l j hj
  · simp only [decode_to_fastq, hgen]

/-- Witness for C1 at buffer [97, 63, 128, 250] and L = 2 (N = 2). -/
theorem fastq_C1_witness :
    ∃ recs : List (String × String × Nat),
      generate_decoded_sequences
          (fun s => if s = "f" then some [97, 63, 128, 250] else none)
          (mkEncoder "f" 2) =
        Except.ok (⟨"f", Int.ofNat 2, true, some [97, 63, 128, 250]⟩, recs) ∧
      recs.length = ([97, 63, 128, 250] : List Nat).length / 2 ∧
      (∀ j, j < ([97, 63, 128, 250] : List Nat).length / 2 → ∃ ns qs,
        recs[j]? = some (ns, qs, j) ∧ ns.length = 2 ∧ qs.length = 2) ∧
      decode_to_fastq
          (fun s => if s = "f" then some [97, 63, 128, 250] else none)
          (mkEncoder "f" 2) =
        Except.ok (recs.map (fun r => fastq_string r.1 r.2.1 (r.2.2 + 1))) :=
  fastq_C1 _ "f" [97, 63, 128, 250] 2 rfl (by decide) (by decide) (by decide)

/-- Claim C2: per byte, the decoder produces nucleotide
nucleotide_dict[b >> 6] and quality chr((b & 0x3F) + 33), applied
left-to-right so byte j of the chunk determines character j of both
output strings; and the chunk [0x61, 0x3F, 0x80, 0xFA] decodes to
("CAGT", "B`!["). -/
theorem fastq_C2 :
    (∀ piece : List Nat, (∀ b ∈ piece, b < 256) →
      ∃ ns qs : String, decode_dna piece = some (ns, qs) ∧
        ns.data.length = piece.length ∧ qs.data.length = piece.length ∧
        (∀ j, j < piece.length → ∃ b,
          piece[j]? = some b ∧
          nucleotide_dict (b >>> 6) = ns.data[j]? ∧
          qs.data[j]? = some (Char.ofNat ((b &&& 63) + 33)))) ∧
    decode_dna [0x61, 0x3F, 0x80, 0xFA] = some ("CAGT", "B`![") := by
  constructor
  · intro piece hb
    refine ⟨_, _, decode_dna_eq piece hb, ?_, ?_, ?_⟩
    · show (piece.map decodeNuc).length = piece.length
      exact List.length_map piece decodeNuc
    · show (piece.map decodeQual).length = piece.length
      exact List.length_map piece decodeQual
    · intro j hj
      refine ⟨piece[j], List.getElem?_eq_getElem hj, ?_, ?_⟩
      · show nucleotide_dict (piece[j] >>> 6) = (piece.map decodeNuc)[j]?
        rw [List.getElem?_map, List.getElem?_eq_getElem hj]
        exact nucleotide_dict_eq piece[j] (hb piece[j] (piece.getElem_mem hj))
      · show (piece.map decodeQual)[j]? = some (Char.ofNat ((piece[j] &&& 63) + 33))
        rw [List.getElem?_map, List.getElem?_eq_getElem hj]
        rfl
  · rfl

/-- Witness for C2 at the piece [97, 63]. -/
theorem fastq_C2_witness :
    ∃ ns qs : String, decode_dna [97, 63] = some (ns, qs) ∧
      ns.data.length = ([97, 63] : List Nat).length ∧
      qs.data.length = ([97, 63] : List Nat).length ∧
      (∀ j, j < ([97, 63] : List Nat).length → ∃ b,
        ([97, 63] : List Nat)[j]? = some b ∧
        nucleotide_dict (b >>> 6) = ns.data[j]? ∧
        qs.data[j]? = some (Char.ofNat ((b &&& 63) + 33))) :=
  fastq_C2.1 [97, 63] (by decide)

/-- Counterexample to claim C6 as stated: decoding the single byte 0x61
does not give quality character 'A'; the bottom six bits are
0b100001 = 33, and chr(33 + 33) = chr(66) = 'B' (not chr(65) = 'A'). -/
theorem fastq_C6_counterexample :
    ¬ (decode_dna [0x61] = some ("C", "A")) := by decide

/-- Claim C6 (amended): decoding the single byte 0x61 (0b01100001) yields
nucleotide character 'C' (code 01) and quality character
chr(0b100001 + 33) = chr(66) = 'B'. -/
theorem fastq_C6 : decode_dna [0x61] = some ("C", "B") := by decide

set_option maxRecDepth 8192 in
/-- Claim C9: the byte decoder is total with no error path: for every
byte b < 256, b >> 6 lies in {0,1,2,3}, the nucleotide_dict lookup
succeeds, the emitted nucleotide is one of A/C/G/T, decode_dna succeeds
on the byte, and the emitted quality character has code in [33, 96]. -/
theorem fastq_C9 : ∀ b : Nat, b < 256 →
    b >>> 6 < 4 ∧
    nucleotide_dict (b >>> 6) = some (decodeNuc b) ∧
    (decodeNuc b = 'A' ∨ decodeNuc b = 'C' ∨ decodeNuc b = 'G' ∨
      decodeNuc b = 'T') ∧
    decode_dna [b] = some (String.mk [decodeNuc b], String.mk [decodeQual b]) ∧
    33 ≤ (decodeQual b).toNat ∧ (decodeQual b).toNat ≤ 96 := by decide

/-- Witness for C9 at byte 97. -/
theorem fastq_C9_witness :
    97 >>> 6 < 4 ∧
    nucleotide_dict (97 >>> 6) = some (decodeNuc 97) ∧
    (decodeNuc 97 = 'A' ∨ decodeNuc 97 = 'C' ∨ decodeNuc 97 = 'G' ∨
      decodeNuc 97 = 'T') ∧
    decode_dna [97] = some (String.mk [decodeNuc 97], String.mk [decodeQual 97]) ∧
    33 ≤ (decodeQual 97).toNat ∧ (decodeQual 97).toNat ≤ 96 :=
  fastq_C9 97 (by decide)

/-- Claim C10: decode_dna imposes no precondition relating its input
length to L: for every bytes piece of any length it returns without
error a pair of strings whose lengths both equal the piece's length. -/
theorem fastq_C10 (piece : List Nat) (hb : ∀ b ∈ piece, b < 256) :
    ∃ ns qs : String, decode_dna piece = some (ns, qs) ∧
      ns.length = piece.length ∧ qs.length = piece.length := by
  refine ⟨_, _, decode_dna_eq piece hb, ?_, ?_⟩
  · show (piece.map decodeNuc).length = piece.length
    exact List.length_map piece decodeNuc
  · show (piece.map decodeQual).length = piece.length
    exact List.length_map piece decodeQual

/-- Witness for C10 at the piece [0, 255, 97] (length 3, unrelated to any L). -/
theorem fastq_C10_witness :
    ∃ ns qs : String, decode_dna [0, 255, 97] = some (ns, qs) ∧
      ns.length = ([0, 255, 97] : List Nat).length ∧
      qs.length = ([0, 255, 97] : List Nat).length :=
  fastq_C10 [0, 255, 97] (by decide)

/-- Claim C3: decoding fails with InsufficientData (naming the source and
L, with no records emitted) if and only if N = floor(len(buffer)/L) = 0;
conversely when N >= 1 the B mod L trailing bytes are silently dropped
and all N full records are still produced. The lazy raise point (first
chunk request) is modelled extensionally: the consumed generator is the
error with no yielded items. -/
theorem fastq_C3 (fs : String → Option (List Nat)) (fp : String)
    (data : List Nat) (l : Nat) (hfs : fs fp = some data)
    (hb : ∀ b ∈ data, b < 256) (_hl : 1 ≤ l) :
    (generate_decoded_sequences fs (mkEncoder fp l) =
        Except.error (DecodeError.insufficientData fp (Int.ofNat l)) ↔
      data.length / l = 0) ∧
    (DecodeError.insufficientData fp (Int.ofNat l)).message =
      "Insufficient data to decode: The input file '" ++ fp ++
      "' does not contain enough data to form a single sequence of length " ++
      toString (Int.ofNat l) ++ "." ∧
    (1 ≤ data.length / l → ∃ e2 recs,
      generate_decoded_sequences fs (mkEncoder fp l) = Except.ok (e2, recs) ∧
      recs.length = data.length / l) := by
  refine ⟨?_, rfl, ?_⟩
  · constructor
    · intro herr
      by_contra hN
      rw [generate_eq_ok fs fp data l hfs hb hN] at herr
      exact absurd herr (by simp)
    · intro hN
      exact generate_eq_insufficient fs fp data l hfs hN
  · intro hN
    exact ⟨_, _, generate_eq_ok fs fp data l hfs hb (by omega),
      pipelineRecs_length data l⟩

/-- Witness for C3: buffer [97, 63, 128] with L = 2 (N = 1, one trailing
byte dropped), and the same buffer with L = 2 does not hit the N = 0 side;
the iff and the record count are checked there. -/
theorem fastq_C3_witness :
    (generate_decoded_sequences
        (fun s => if s = "f" then some [97, 63, 128] else none)
        (mkEncoder "f" 2) =
      Except.error (DecodeError.insufficientData "f" (Int.ofNat 2)) ↔
      ([97, 63, 128] : List Nat).length / 2 = 0) ∧
    (DecodeError.insufficientData "f" (Int.ofNat 2)).message =
      "Insufficient data to decode: The input file '" ++ "f" ++
      "' does not contain enough data to form a single sequence of length " ++
      toString (Int.ofNat 2) ++ "." ∧
    (1 ≤ ([97, 63, 128] : List Nat).length / 2 → ∃ e2 recs,
      generate_decoded_sequences
          (fun s => if s = "f" then some [97, 63, 128] else none)
          (mkEncoder "f" 2) = Except.ok (e2, recs) ∧
      recs.length = ([97, 63, 128] : List Nat).length / 2) :=
  fastq_C3 _ "f" [97, 63, 128] 2 rfl (by decide) (by decide)

/-- Claim C4: for every record length L <= 0, construction fails with
InvalidLength, a ValueError whose message identifies the offending L,
immediately at construction (no decoding attempted: only the error value
is produced); for every L >= 1, construction succeeds. -/
theorem fastq_C4 (fp : String) (l : Int) :
    (l ≤ 0 →
      DnaToFastqEncoder.init fp l =
        Except.error (DecodeError.invalidLength l) ∧
      (DecodeError.invalidLength l).message =
        "L-value error: Cannot decode sequences of length " ++ toString l ++
        ". L-value must be a positive integer") ∧
    (1 ≤ l → DnaToFastqEncoder.init fp l = Except.ok ⟨fp, l, false, none⟩) := by
  constructor
  · intro h
    exact ⟨by rw [DnaToFastqEncoder.init, if_pos h], rfl⟩
  · intro h
    rw [DnaToFastqEncoder.init, if_neg (by omega)]

/-- Witness for C4 at L = -1 (rejected) and L = 3 (accepted). -/
theorem fastq_C4_witness :
    (DnaToFastqEncoder.init "f" (-1) =
        Except.error (DecodeError.invalidLength (-1)) ∧
      (DecodeError.invalidLength (-1)).message =
        "L-value error: Cannot decode sequences of length " ++
        toString (-1 : Int) ++ ". L-value must be a positive integer") ∧
    DnaToFastqEncoder.init "f" 3 = Except.ok ⟨"f", 3, false, none⟩ :=
  ⟨(fastq_C4 "f" (-1)).1 (by decide), (fastq_C4 "f" 3).2 (by decide)⟩

/-- Claim C5: the record formatter returns exactly the newline-joined
four-line block @READ_n / sequence / +READ_n / quality, with no trailing
newline inside the block; in particular for ("AGCAATG", "^T+;<7G", 1) it
returns exactly "@READ_1\nAGCAATG\n+READ_1\n^T+;<7G". -/
theorem fastq_C5 :
    (∀ (s q : String) (n : Nat),
      fastq_string s q n = String.intercalate "\n"
        ["@READ_" ++ toString n, s, "+READ_" ++ toString n, q]) ∧
    fastq_string "AGCAATG" "^T+;<7G" 1 = "@READ_1\nAGCAATG\n+READ_1\n^T+;<7G" := by
  refine ⟨fun s q n => ?_, rfl⟩
  simp only [String.intercalate, String.intercalate.go, fastq_string]
  apply String.ext
  have h1 : ("\n+READ_" : String).data = '\n' :: ("+READ_" : String).data := rfl
  have h2 : ("\n" : String).data = ['\n'] := rfl
  simp only [String.data_append, h1, h2, List.append_assoc, List.cons_append,
    List.singleton_append, List.nil_append]

/-- Claim C7: for every path the file system cannot open, decoding fails
with SourceNotFound (FileNotFoundError) whose message names that path;
construction itself succeeds (the failure is at first access, lazily),
and no records are produced (the consumed pipeline is the error alone). -/
theorem fastq_C7 (fs : String → Option (List Nat)) (fp : String) (l : Nat)
    (hl : 1 ≤ l) (hfs : fs fp = none) :
    DnaToFastqEncoder.init fp (Int.ofNat l) = Except.ok (mkEncoder fp l) ∧
    generate_decoded_sequences fs (mkEncoder fp l) =
      Except.error (DecodeError.fileNotFound fp) ∧
    decode_to_fastq fs (mkEncoder fp l) =
      Except.error (DecodeError.fileNotFound fp) ∧
    (DecodeError.fileNotFound fp).message = "File " ++ fp ++ " not found" := by
  refine ⟨?_, generate_eq_notfound fs fp l hfs, ?_, rfl⟩
  · rw [DnaToFastqEncoder.init,
      if_neg (by simp only [Int.ofNat_eq_coe]; omega), mkEncoder]
  · simp only [decode_to_fastq, generate_eq_notfound fs fp l hfs]

/-- Witness for C7 at path "missing" on an empty file system, L = 2. -/
theorem fastq_C7_witness :
    DnaToFastqEncoder.init "missing" (Int.ofNat 2) =
      Except.ok (mkEncoder "missing" 2) ∧
    generate_decoded_sequences (fun _ => none) (mkEncoder "missing" 2) =
      Except.error (DecodeError.fileNotFound "missing") ∧
    decode_to_fastq (fun _ => none) (mkEncoder "missing" 2) =
      Except.error (DecodeError.fileNotFound "missing") ∧
    (DecodeError.fileNotFound "missing").message =
      "File " ++ "missing" ++ " not found" :=
  fastq_C7 (fun _ => none) "missing" 2 (by decide) rfl

/-- Claim C8: loading is idempotent and decoding deterministic: a
successful pipeline run leaves the encoder with the buffer loaded, and
every repeated decode request on that encoder reuses the already-loaded
buffer (for any file system state, so the source is not re-read) and
yields the identical record sequence. -/
theorem fastq_C8 (fs : String → Option (List Nat)) (e e2 : DnaToFastqEncoder)
    (recs : List (String × String × Nat))
    (h : generate_decoded_sequences fs e = Except.ok (e2, recs)) :
    e2.is_data_loaded = true ∧
    ∀ fs2 : String → Option (List Nat),
      generate_decoded_sequences fs2 e2 = Except.ok (e2, recs) := by
  unfold generate_decoded_sequences at h
  cases hle : load_if_needed fs e with
  | error err => rw [hle] at h; simp at h
  | ok e3 =>
    rw [hle] at h
    dsimp only at h
    have he3 : e3.is_data_loaded = true := load_if_needed_ok_loaded fs e e3 hle
    by_cases hn : (e3.data.getD []).length / e3.l.toNat = 0
    · rw [if_pos hn] at h; simp at h
    · rw [if_neg hn] at h
      cases hdp : decodePieces (e3.data.getD []) e3.l.toNat
          (List.range ((e3.data.getD []).length / e3.l.toNat)) with
      | none => rw [hdp] at h; simp at h
      | some recs0 =>
        rw [hdp] at h
        injection h with h2
        injection h2 with ha hb
        subst ha
        subst hb
        refine ⟨he3, fun fs2 => ?_⟩
        unfold generate_decoded_sequences
        rw [load_if_needed_loaded fs2 e3 he3]
        dsimp only
        rw [if_neg hn, hdp]

/-- Witness for C8: one run on buffer [97] with L = 1 loads the buffer,
and every rerun on the resulting encoder yields the same single record. -/
theorem fastq_C8_witness :
    (⟨"f", Int.ofNat 1, true, some [97]⟩ : DnaToFastqEncoder).is_data_loaded =
      true ∧
    ∀ fs2 : String → Option (List Nat),
      generate_decoded_sequences fs2 ⟨"f", Int.ofNat 1, true, some [97]⟩ =
        Except.ok (⟨"f", Int.ofNat 1, true, some [97]⟩, [("C", "B", 0)]) :=
  fastq_C8 (fun _ => some [97]) (mkEncoder "f" 1) _ _ rfl
